import Mathlib

/-
Verification development for the chess contest-graph analytics engine
(src/src/analysis.rs and the merge stage of src/src/main.rs).

Modelling conventions:
- Rust String becomes Lean String; f32 and f64 values become rationals;
  u32 and usize counters become Nat (no claim here depends on wraparound).
- A Rust HashMap is modelled as an association list in insertion order.
  Lookups only depend on the key-value mapping, which the association list
  represents exactly; where a HashMap is iterated (the export stage),
  iteration order is unspecified in Rust, so the export model is quantified
  over permutations of the entry list.
- Game fields never read by the analytics engine (event, elo values,
  play times, moves, eco, opening, time control, tos violations) are
  omitted from the embedding; every modelled function reads only the
  fields kept here.
-/

namespace GameAnalysis

/-- One contest record, from struct Game in src/src/analysis.rs.
Fields kept: game_id, white, white_rating_diff, black, black_rating_diff,
result; the remaining metadata fields are never read by the engine. -/
structure Game where
  game_id : String
  white : String
  white_rating_diff : Option ℚ
  black : String
  black_rating_diff : Option ℚ
  result : String
deriving DecidableEq

/-- Per-player aggregate, from struct PlayerPerformance in src/src/analysis.rs. -/
structure PlayerPerformance where
  games_played : Nat
  games_won : Nat
  games_lost : Nat
  games_drawn : Nat
  total_rating_change : ℚ
  win_rate : ℚ
deriving DecidableEq

/-- Default::default() for PlayerPerformance: all fields zero. -/
def PlayerPerformance.default : PlayerPerformance :=
  ⟨0, 0, 0, 0, 0, 0⟩

/-- PlayerPerformance::calculate_win_rate from src/src/analysis.rs lines 61-67. -/
def PlayerPerformance.calculate_win_rate (p : PlayerPerformance) : ℚ :=
  if p.games_played = 0 then 0
  else (p.games_won : ℚ) / (p.games_played : ℚ)

/-- PlayerPerformance::update from src/src/analysis.rs lines 49-59:
increment games_played, add the rating diff, bump the matching outcome
counter, then recompute win_rate from the new counts. -/
def PlayerPerformance.update (p : PlayerPerformance) (result : String) (rating_diff : ℚ) :
    PlayerPerformance :=
  let p1 : PlayerPerformance :=
    { p with
      games_played := p.games_played + 1
      total_rating_change := p.total_rating_change + rating_diff }
  let p2 : PlayerPerformance :=
    match result with
    | "1-0" => { p1 with games_won := p1.games_won + 1 }
    | "0-1" => { p1 with games_lost := p1.games_lost + 1 }
    | "1/2-1/2" => { p1 with games_drawn := p1.games_drawn + 1 }
    | _ => p1
  { p2 with win_rate := p2.calculate_win_rate }

/-- Association-list lookup, modelling HashMap::get. -/
def lookupA {α : Type} : List (String × α) → String → Option α
  | [], _ => none
  | (k, v) :: rest, key => if k = key then some v else lookupA rest key

/-- Models map.entry(k).or_insert(d) followed by an in-place mutation f of
the entry: replace the existing value by f of it, or append f d. -/
def upsertWith {α : Type} : List (String × α) → String → α → (α → α) → List (String × α)
  | [], key, d, f => [(key, f d)]
  | (k, v) :: rest, key, d, f =>
      if k = key then (k, f v) :: rest else (k, v) :: upsertWith rest key d f

/-- Models white_map.into_iter().chain(black_map.into_iter()).collect():
inserting all white entries and then all black entries into one HashMap,
so for a key present in both, the black value overwrites the white one. -/
def mergeOverride {α : Type} (white black : List (String × α)) : List (String × α) :=
  white.filter (fun e => (lookupA black e.1).isNone) ++ black

/-- The match at src/src/analysis.rs lines 215-233 deriving the two
per-side result strings from the record, or none for the continue arm. -/
def white_black_results (g : Game) : Option (String × String) :=
  match g.result with
  | "Normal" =>
      if g.white_rating_diff.getD 0 > 0 then some ("1-0", "0-1")
      else if g.black_rating_diff.getD 0 > 0 then some ("0-1", "1-0")
      else some ("1/2-1/2", "1/2-1/2")
  | "Time forfeit" =>
      if g.white_rating_diff.getD 0 > 0 then some ("1-0", "0-1")
      else some ("0-1", "1-0")
  | _ => none

/-- One loop iteration of track_player_performance: skip the record when
the result string is unrecognized, otherwise upsert both side maps. -/
def trackStep (maps : List (String × PlayerPerformance) × List (String × PlayerPerformance))
    (g : Game) : List (String × PlayerPerformance) × List (String × PlayerPerformance) :=
  match white_black_results g with
  | none => maps
  | some (wr, br) =>
      (upsertWith maps.1 g.white PlayerPerformance.default
        (fun p => p.update wr (g.white_rating_diff.getD 0)),
       upsertWith maps.2 g.black PlayerPerformance.default
        (fun p => p.update br (g.black_rating_diff.getD 0)))

/-- The white_performance map built by track_player_performance. -/
def white_performance (games : List Game) : List (String × PlayerPerformance) :=
  (games.foldl trackStep ([], [])).1

/-- The black_performance map built by track_player_performance. -/
def black_performance (games : List Game) : List (String × PlayerPerformance) :=
  (games.foldl trackStep ([], [])).2

/-- track_player_performance from src/src/analysis.rs lines 210-243:
build the two side maps, then chain-collect them (black overwrites white). -/
def track_player_performance (games : List Game) : List (String × PlayerPerformance) :=
  mergeOverride (white_performance games) (black_performance games)

/-- Accumulator tuple (wins, draws, rating_diff_sum, game_count) used by
calculate_mean_mode; tuple components .0 .1 .2 .3 in the source. -/
structure MMAcc where
  wins : ℚ
  draws : ℚ
  rating_sum : ℚ
  game_count : Nat
deriving DecidableEq

/-- The (0.0, 0.0, 0.0, 0) or_insert default of calculate_mean_mode. -/
def MMAcc.zero : MMAcc := ⟨0, 0, 0, 0⟩

/-- Mutations applied to the white entry for one record in
calculate_mean_mode (src/src/analysis.rs lines 327-345): win credit on
"1-0", half draw credit on "1/2-1/2", then always add the white rating
diff and bump game_count. -/
def whiteAccUpdate (g : Game) (e : MMAcc) : MMAcc :=
  let e1 : MMAcc :=
    match g.result with
    | "1-0" => { e with wins := e.wins + 1 }
    | "1/2-1/2" => { e with draws := e.draws + 1/2 }
    | _ => e
  { e1 with
    rating_sum := e1.rating_sum + (g.white_rating_diff.getD 0)
    game_count := e1.game_count + 1 }

/-- Mutations applied to the black entry for one record in
calculate_mean_mode: win credit on "0-1", half draw credit on "1/2-1/2",
then always add the black rating diff and bump game_count. -/
def blackAccUpdate (g : Game) (e : MMAcc) : MMAcc :=
  let e1 : MMAcc :=
    match g.result with
    | "0-1" => { e with wins := e.wins + 1 }
    | "1/2-1/2" => { e with draws := e.draws + 1/2 }
    | _ => e
  { e1 with
    rating_sum := e1.rating_sum + (g.black_rating_diff.getD 0)
    game_count := e1.game_count + 1 }

/-- One loop iteration of calculate_mean_mode: both side entries are
created (or_insert) and mutated for every record, with no outcome guard. -/
def meanModeStep (maps : List (String × MMAcc) × List (String × MMAcc)) (g : Game) :
    List (String × MMAcc) × List (String × MMAcc) :=
  (upsertWith maps.1 g.white MMAcc.zero (whiteAccUpdate g),
   upsertWith maps.2 g.black MMAcc.zero (blackAccUpdate g))

/-- Finalized mean/mode tuple (win_rate, draws, mean_rating_diff, game_count). -/
structure MMStats where
  win_rate : ℚ
  draws : ℚ
  mean_rating_diff : ℚ
  game_count : Nat
deriving DecidableEq

/-- The white_metrics map built by calculate_mean_mode. -/
def white_metrics (games : List Game) : List (String × MMAcc) :=
  (games.foldl meanModeStep ([], [])).1

/-- The black_metrics map built by calculate_mean_mode. -/
def black_metrics (games : List Game) : List (String × MMAcc) :=
  (games.foldl meanModeStep ([], [])).2

/-- calculate_mean_mode from src/src/analysis.rs lines 319-356: accumulate
the two side maps, chain-collect them (black overwrites white), then divide
wins and rating_diff_sum by game_count. -/
def calculate_mean_mode (games : List Game) : List (String × MMStats) :=
  (mergeOverride (white_metrics games) (black_metrics games)).map
    (fun e =>
      (e.1,
       { win_rate := e.2.wins / (e.2.game_count : ℚ)
         draws := e.2.draws
         mean_rating_diff := e.2.rating_sum / (e.2.game_count : ℚ)
         game_count := e.2.game_count }))

/-- Directed multigraph, modelling petgraph DiGraph(String, u32): nodes in
index order, edges as (source index, target index, weight). -/
structure DiGraph where
  nodes : List String
  edges : List (Nat × Nat × Nat)
deriving DecidableEq

/-- player_indices.entry(name).or_insert_with(add_node): return the index
of an existing node, or append a fresh node whose index is the previous
node count (petgraph assigns indices in insertion order). -/
def addNodeIfAbsent (gr : DiGraph) (idx : List (String × Nat)) (s : String) :
    Nat × DiGraph × List (String × Nat) :=
  match lookupA idx s with
  | some i => (i, gr, idx)
  | none =>
      (gr.nodes.length, { gr with nodes := gr.nodes ++ [s] },
       idx ++ [(s, gr.nodes.length)])

/-- One loop iteration of build_graph: resolve or create both endpoint
nodes, then always append one directed edge white to black with weight 1. -/
def buildStep (st : DiGraph × List (String × Nat)) (g : Game) :
    DiGraph × List (String × Nat) :=
  let w := addNodeIfAbsent st.1 st.2 g.white
  let b := addNodeIfAbsent w.2.1 w.2.2 g.black
  ({ b.2.1 with edges := b.2.1.edges ++ [(w.1, b.1, 1)] }, b.2.2)

/-- build_graph from src/src/analysis.rs lines 125-141. -/
def build_graph (games : List Game) : DiGraph :=
  (games.foldl buildStep (⟨[], []⟩, [])).1

/-- In-degree of a node: petgraph neighbors_directed(Incoming).count()
walks one item per incoming edge, so parallel edges are all counted. -/
def in_degree (g : DiGraph) (n : Nat) : Nat :=
  (g.edges.filter (fun e => e.2.1 = n)).length

/-- Out-degree of a node: one item per outgoing edge. -/
def out_degree (g : DiGraph) (n : Nat) : Nat :=
  (g.edges.filter (fun e => e.1 = n)).length

/-- calculate_in_out_degree_centrality from src/src/analysis.rs lines
245-255: map each node index to its (in_degree, out_degree) pair. -/
def calculate_in_out_degree_centrality (g : DiGraph) : List (Nat × Nat × Nat) :=
  (List.range g.nodes.length).map (fun n => (n, in_degree g n, out_degree g n))

/-- The external rustworkx_core centrality library, as the interface the
engine calls: betweenness_centrality(graph, endpoints, normalized,
parallel_threshold) and closeness_centrality(graph, wf_improved), each
returning one optional score per node index. The engine treats the
library as an external collaborator, so the development is parameterized
over any implementation of this interface. -/
structure CentralityLib where
  betweenness : DiGraph → Bool → Bool → Nat → List (Option ℚ)
  closeness : DiGraph → Bool → List (Option ℚ)

/-- The zip-with-node-indices and filter_map step shared by the centrality
wrappers: pair score i with node index i, dropping None scores. -/
def zipFilterScores (g : DiGraph) (scores : List (Option ℚ)) : List (Nat × ℚ) :=
  ((List.range g.nodes.length).zip scores).filterMap
    (fun e => e.2.map (fun score => (e.1, score)))

/-- calculate_betweenness_centrality from src/src/analysis.rs lines
171-175: betweenness_centrality(graph, true, true, graph.node_count()). -/
def calculate_betweenness_centrality (lib : CentralityLib) (g : DiGraph) : List (Nat × ℚ) :=
  zipFilterScores g (lib.betweenness g true true g.nodes.length)

/-- calculate_closeness_centrality from src/src/analysis.rs lines 177-180:
closeness_centrality(graph, true). -/
def calculate_closeness_centrality (lib : CentralityLib) (g : DiGraph) : List (Nat × ℚ) :=
  zipFilterScores g (lib.closeness g true)

/-- calculate_weighted_centrality from src/src/analysis.rs lines 257-274:
betweenness_centrality(graph, true, true, graph.node_count()) and
closeness_centrality(graph, true), zipped and filtered the same way. -/
def calculate_weighted_centrality (lib : CentralityLib) (g : DiGraph) :
    List (Nat × ℚ) × List (Nat × ℚ) :=
  (zipFilterScores g (lib.betweenness g true true g.nodes.length),
   zipFilterScores g (lib.closeness g true))

/-
Export and merge stage, from perform_game_data_analysis in
src/src/main.rs lines 141-213. Each export function in analysis.rs writes
its HashMap entries as headerless CSV rows, one tuple per entry, in
HashMap iteration order; the merge stage reads each file back with a CSV
reader whose default has_headers=true consumes the first data row as a
header, then emits one or two seven-column rows per remaining record.
The model keeps each intermediate file as a list of typed records (CSV
serialization of these scalar tuples round-trips), in an arbitrary
iteration order supplied by the caller, and applies List.tail for the
consumed header row.
-/

/-- One row of player_perf.csv as written by export_performance
(src/src/analysis.rs lines 192-208): tuple indices 0..6 are player,
games_played, games_won, games_lost, games_drawn, total_rating_change,
win_rate. -/
structure PerfCsvRecord where
  player : String
  games_played : Nat
  games_won : Nat
  games_lost : Nat
  games_drawn : Nat
  total_rating_change : ℚ
  win_rate : ℚ
deriving DecidableEq

/-- The tuple export_performance writes for one map entry. -/
def perfCsvOf (e : String × PlayerPerformance) : PerfCsvRecord :=
  ⟨e.1, e.2.games_played, e.2.games_won, e.2.games_lost, e.2.games_drawn,
   e.2.total_rating_change, e.2.win_rate⟩

/-- One seven-column row of the merged analysis_output.csv, in the schema
Analysis Type, Player, Score, Win Rate, Draws, Mean Rating Diff,
Game Count; none models the empty string of a not-applicable field. -/
structure Row where
  analysis_type : String
  player : String
  score : Option ℚ
  win_rate : Option ℚ
  draws : Option ℚ
  mean_rating_diff : Option ℚ
  game_count : Option ℚ
deriving DecidableEq

/-- Merged row for one pagerank, betweenness or closeness record
(src/src/main.rs lines 147-165): tag, record[0], record[1], then empties. -/
def centralityRow (tag : String) (r : String × ℚ) : Row :=
  ⟨tag, r.1, some r.2, none, none, none, none⟩

/-- Merged row for one player_perf.csv record (src/src/main.rs lines
168-180): fields written are record[0] as Player, record[6] (win_rate) as
Win Rate, record[3] (the games_lost column) as Draws, record[5]
(total_rating_change) as Mean Rating Diff, record[1] (games_played) as
Game Count. -/
def perfRow (r : PerfCsvRecord) : Row :=
  ⟨"Player Performance", r.player, none, some r.win_rate,
   some (r.games_lost : ℚ), some r.total_rating_change, some (r.games_played : ℚ)⟩

/-- Merged rows for one in_out_degree.csv record (player, in, out)
(src/src/main.rs lines 183-188): both the In-Degree row and the
Out-Degree row carry record[1], the in-degree column. -/
def degreeRows (r : String × Nat × Nat) : List Row :=
  [⟨"In-Degree", r.1, some (r.2.1 : ℚ), none, none, none, none⟩,
   ⟨"Out-Degree", r.1, some (r.2.1 : ℚ), none, none, none, none⟩]

/-- Merged rows for one weighted_centrality.csv record (player,
betweenness, closeness) (src/src/main.rs lines 191-196): both the
Weighted Betweenness row and the Weighted Closeness row carry record[1],
the betweenness column. -/
def weightedRows (r : String × ℚ × ℚ) : List Row :=
  [⟨"Weighted Betweenness", r.1, some r.2.1, none, none, none, none⟩,
   ⟨"Weighted Closeness", r.1, some r.2.1, none, none, none, none⟩]

/-- Merged row for one mean_mode_metrics.csv record (src/src/main.rs
lines 199-211): record[1] as Win Rate, record[2] as Draws, record[3] as
Mean Rating Diff, record[4] as Game Count. -/
def meanModeRow (r : String × MMStats) : Row :=
  ⟨"Mean/Mode Metrics", r.1, none, some r.2.win_rate, some r.2.draws,
   some r.2.mean_rating_diff, some (r.2.game_count : ℚ)⟩

/-- The full merged row list of analysis_output.csv (after its constant
header row), from src/src/main.rs lines 141-213. Each argument is the
corresponding intermediate file content, i.e. the entries of the
corresponding HashMap in that run's iteration order; List.tail models the
first record of each file being consumed as a CSV header. -/
def mergedRows (pr btw cls : List (String × ℚ)) (perf : List PerfCsvRecord)
    (deg : List (String × Nat × Nat)) (wtd : List (String × ℚ × ℚ))
    (mm : List (String × MMStats)) : List Row :=
  pr.tail.map (centralityRow "PageRank")
    ++ btw.tail.map (centralityRow "Betweenness Centrality")
    ++ cls.tail.map (centralityRow "Closeness Centrality")
    ++ perf.tail.map perfRow
    ++ (deg.tail.map degreeRows).flatten
    ++ (wtd.tail.map weightedRows).flatten
    ++ mm.tail.map meanModeRow

/-
Concrete batches used by the counterexamples and bug evaluations. The
spec scenario outcome A_WIN with deltas (+5, -5) corresponds, under the
derivation in track_player_performance, to a record with result "Normal"
and a positive white rating diff; B_WIN with (-3, +3) to result "Normal"
and a positive black rating diff.
-/

/-- The spec scenario batch: (P1,P2,A_WIN,+5,-5) then (P2,P3,B_WIN,-3,+3). -/
def demoGames : List Game :=
  [⟨"1", "P1", some 5, "P2", some (-5), "Normal"⟩,
   ⟨"2", "P2", some (-3), "P3", some 3, "Normal"⟩]

/-- Batch in which player B appears once as white and once as black. -/
def crossGames : List Game :=
  [⟨"1", "A", some 1, "B", some (-1), "Normal"⟩,
   ⟨"2", "B", some 2, "A", some (-2), "Normal"⟩]

/-- One record whose result string is recognized by neither analyzer. -/
def unrecognizedGame : Game :=
  ⟨"1", "P1", none, "P2", none, "Started"⟩

/-- One record encoding a draw with the result string "1/2-1/2", the draw
encoding used by calculate_mean_mode and by the test data in
src/src/main.rs. -/
def drawGame : Game :=
  ⟨"1", "P1", some 0, "P2", some 0, "1/2-1/2"⟩

/-- Batch giving node B in-degree 2 and out-degree 0. -/
def degGames : List Game :=
  [⟨"1", "A", none, "B", none, "Normal"⟩,
   ⟨"2", "C", none, "B", none, "Normal"⟩]

/-- One record that the tracker derives as a draw: result "Normal" with
neither rating diff positive. -/
def normalDrawGame : Game :=
  ⟨"1", "P1", some 0, "P2", some 0, "Normal"⟩

/-- The performance map entries of the scenario batch in their canonical
model order, as export_performance records. -/
def perfOrderA : List PerfCsvRecord :=
  (track_player_performance demoGames).map perfCsvOf

/-- The same entries in the reversed iteration order; a Rust HashMap may
present its entries in any order, so both lists model valid runs. -/
def perfOrderB : List PerfCsvRecord := perfOrderA.reverse

/-
Specification-side reference quantities and loop invariants used by the
theorems below.
-/

/-- All participant identities across the records, one white and one
black occurrence per record. -/
def allPlayers (games : List Game) : List String :=
  games.flatMap (fun g => [g.white, g.black])

/-- Number of records with a tracker-recognized result string in which p
is the white participant. -/
def whiteRecCount (games : List Game) (p : String) : Nat :=
  (games.filter (fun g => (white_black_results g).isSome && g.white == p)).length

/-- Number of records with a tracker-recognized result string in which p
is the black participant. -/
def blackRecCount (games : List Game) (p : String) : Nat :=
  (games.filter (fun g => (white_black_results g).isSome && g.black == p)).length

/-- Number of records in which p is the white participant (no outcome gate). -/
def whiteAllCount (games : List Game) (p : String) : Nat :=
  (games.filter (fun g => g.white == p)).length

/-- Number of records in which p is the black participant (no outcome gate). -/
def blackAllCount (games : List Game) (p : String) : Nat :=
  (games.filter (fun g => g.black == p)).length

/-- Sum of the white rating diffs (defaulted to 0) over the records in
which p is the white participant. -/
def whiteDeltaSum (games : List Game) (p : String) : ℚ :=
  ((games.filter (fun g => g.white == p)).map (fun g => g.white_rating_diff.getD 0)).sum

/-- Sum of the black rating diffs (defaulted to 0) over the records in
which p is the black participant. -/
def blackDeltaSum (games : List Game) (p : String) : ℚ :=
  ((games.filter (fun g => g.black == p)).map (fun g => g.black_rating_diff.getD 0)).sum

/-- Effect of one tracker loop iteration on the white-map entry of player p. -/
def stepOWhite (p : String) (o : Option PlayerPerformance) (g : Game) :
    Option PlayerPerformance :=
  match white_black_results g with
  | none => o
  | some (wr, _) =>
      if g.white = p then
        some ((o.getD PlayerPerformance.default).update wr (g.white_rating_diff.getD 0))
      else o

/-- Effect of one tracker loop iteration on the black-map entry of player p. -/
def stepOBlack (p : String) (o : Option PlayerPerformance) (g : Game) :
    Option PlayerPerformance :=
  match white_black_results g with
  | none => o
  | some (_, br) =>
      if g.black = p then
        some ((o.getD PlayerPerformance.default).update br (g.black_rating_diff.getD 0))
      else o

/-- Effect of one calculate_mean_mode iteration on the white entry of p. -/
def stepMMWhite (p : String) (o : Option MMAcc) (g : Game) : Option MMAcc :=
  if g.white = p then some (whiteAccUpdate g (o.getD MMAcc.zero)) else o

/-- Effect of one calculate_mean_mode iteration on the black entry of p. -/
def stepMMBlack (p : String) (o : Option MMAcc) (g : Game) : Option MMAcc :=
  if g.black = p then some (blackAccUpdate g (o.getD MMAcc.zero)) else o

/-- Invariant of every entry of the tracker side maps: the outcome
counters sum to games_played, at least one game was recorded, and
win_rate is games_won over games_played. -/
def PerfInv (q : PlayerPerformance) : Prop :=
  q.games_won + q.games_lost + q.games_drawn = q.games_played ∧
  1 ≤ q.games_played ∧
  q.win_rate = (q.games_won : ℚ) / (q.games_played : ℚ)

/-- Invariant of the build_graph loop state: the index map keys are
exactly the node names, and node names never repeat. -/
def GraphInv (st : DiGraph × List (String × Nat)) : Prop :=
  (∀ s, (lookupA st.2 s).isSome ↔ s ∈ st.1.nodes) ∧ st.1.nodes.Nodup

end GameAnalysis

namespace GameAnalysis

/-
General association-list lemmas.
-/

theorem lookupA_upsert_self {α : Type} (m : List (String × α)) (key : String) (d : α) (f : α → α) :
    lookupA (upsertWith m key d f) key = some (f ((lookupA m key).getD d)) := by
  induction m with
  | nil => simp [upsertWith, lookupA]
  | cons e rest ih =>
      obtain ⟨k, v⟩ := e
      by_cases hk : k = key
      · subst hk
        simp [upsertWith, lookupA]
      · simp [upsertWith, lookupA, hk, ih]

theorem lookupA_upsert_ne {α : Type} (m : List (String × α)) (key key2 : String) (d : α)
    (f : α → α) (h : key ≠ key2) :
    lookupA (upsertWith m key d f) key2 = lookupA m key2 := by
  induction m with
  | nil => simp [upsertWith, lookupA, h]
  | cons e rest ih =>
      obtain ⟨k, v⟩ := e
      by_cases hk : k = key
      · subst hk
        simp [upsertWith, lookupA, h]
      · simp [upsertWith, lookupA, hk, ih]

theorem lookupA_append {α : Type} (a b : List (String × α)) (p : String) :
    lookupA (a ++ b) p = match lookupA a p with | some v => some v | none => lookupA b p := by
  induction a with
  | nil => simp [lookupA]
  | cons e rest ih =>
      obtain ⟨k, v⟩ := e
      by_cases hk : k = p <;> simp [lookupA, hk, ih]

theorem lookupA_filter_keys {α : Type} (w : List (String × α)) (P : String → Bool) (p : String) :
    lookupA (w.filter (fun e => P e.1)) p = if P p then lookupA w p else none := by
  induction w with
  | nil => simp [lookupA]
  | cons e rest ih =>
      obtain ⟨k, v⟩ := e
      by_cases hk : k = p
      · subst hk
        cases hP : P k <;> simp [List.filter_cons, hP, lookupA, ih]
      · cases hP : P k <;> simp [List.filter_cons, hP, lookupA, hk, ih]

theorem lookupA_mergeOverride {α : Type} (w b : List (String × α)) (p : String) :
    lookupA (mergeOverride w b) p =
      match lookupA b p with
      | some v => some v
      | none => lookupA w p := by
  unfold mergeOverride
  rw [lookupA_append]
  rw [lookupA_filter_keys w (fun s => (lookupA b s).isNone) p]
  cases h : lookupA b p <;> simp [h]
  cases lookupA w p <;> simp

theorem lookupA_map_snd {α β : Type} (f : α → β) (l : List (String × α)) (p : String) :
    lookupA (l.map (fun e => (e.1, f e.2))) p = (lookupA l p).map f := by
  induction l with
  | nil => simp [lookupA]
  | cons e rest ih =>
      obtain ⟨k, v⟩ := e
      by_cases hk : k = p <;> simp [lookupA, hk, ih]

/-
Facts about PlayerPerformance.update.
-/

theorem update_games_played (p : PlayerPerformance) (r : String) (d : ℚ) :
    (p.update r d).games_played = p.games_played + 1 := by
  unfold PlayerPerformance.update
  split <;> rfl

theorem update_total_rating_change (p : PlayerPerformance) (r : String) (d : ℚ) :
    (p.update r d).total_rating_change = p.total_rating_change + d := by
  unfold PlayerPerformance.update
  split <;> rfl

theorem update_win_rate (p : PlayerPerformance) (r : String) (d : ℚ) :
    (p.update r d).win_rate = ((p.update r d).games_won : ℚ) / ((p.update r d).games_played : ℚ) := by
  unfold PlayerPerformance.update PlayerPerformance.calculate_win_rate
  split <;> simp

theorem update_outcome_sum_recognized (p : PlayerPerformance) (r : String) (d : ℚ)
    (h : r = "1-0" ∨ r = "0-1" ∨ r = "1/2-1/2") :
    (p.update r d).games_won + (p.update r d).games_lost + (p.update r d).games_drawn =
      p.games_won + p.games_lost + p.games_drawn + 1 := by
  rcases h with h | h | h <;> subst h <;> simp [PlayerPerformance.update] <;> omega

theorem update_unrecognized (p : PlayerPerformance) (r : String) (d : ℚ)
    (h1 : r ≠ "1-0") (h2 : r ≠ "0-1") (h3 : r ≠ "1/2-1/2") :
    (p.update r d).games_won = p.games_won ∧
    (p.update r d).games_lost = p.games_lost ∧
    (p.update r d).games_drawn = p.games_drawn := by
  unfold PlayerPerformance.update
  split
  · simp_all
  · simp_all
  · simp_all
  · simp_all

theorem update_outcome_sum_le (p : PlayerPerformance) (r : String) (d : ℚ)
    (h : p.games_won + p.games_lost + p.games_drawn ≤ p.games_played) :
    (p.update r d).games_won + (p.update r d).games_lost + (p.update r d).games_drawn ≤
      (p.update r d).games_played := by
  unfold PlayerPerformance.update
  split <;> simp <;> omega

theorem white_black_results_recognized (g : Game) (wr br : String)
    (h : white_black_results g = some (wr, br)) :
    (wr = "1-0" ∨ wr = "0-1" ∨ wr = "1/2-1/2") ∧
    (br = "1-0" ∨ br = "0-1" ∨ br = "1/2-1/2") := by
  unfold white_black_results at h
  split at h
  · split_ifs at h <;> (injection h with h2; injection h2 with ha hb; subst ha; subst hb; simp)
  · split_ifs at h <;> (injection h with h2; injection h2 with ha hb; subst ha; subst hb; simp)
  · exact absurd h (by simp)

end GameAnalysis

namespace GameAnalysis

theorem track_lookup_white (games : List Game) :
    ∀ (wm bm : List (String × PlayerPerformance)) (p : String),
    lookupA (games.foldl trackStep (wm, bm)).1 p = games.foldl (stepOWhite p) (lookupA wm p) := by
  induction games with
  | nil => intro wm bm p; simp
  | cons g rest ih =>
      intro wm bm p
      simp only [List.foldl_cons]
      cases hg : white_black_results g with
      | none =>
          simp only [trackStep, hg]
          simpa [stepOWhite, hg] using ih wm bm p
      | some wrbr =>
          obtain ⟨wr, br⟩ := wrbr
          simp only [trackStep, hg]
          rw [ih]
          by_cases hw : g.white = p
          · subst hw
            rw [lookupA_upsert_self]
            simp [stepOWhite, hg]
          · rw [lookupA_upsert_ne _ _ _ _ _ hw]
            simp [stepOWhite, hg, hw]

theorem track_lookup_black (games : List Game) :
    ∀ (wm bm : List (String × PlayerPerformance)) (p : String),
    lookupA (games.foldl trackStep (wm, bm)).2 p = games.foldl (stepOBlack p) (lookupA bm p) := by
  induction games with
  | nil => intro wm bm p; simp
  | cons g rest ih =>
      intro wm bm p
      simp only [List.foldl_cons]
      cases hg : white_black_results g with
      | none =>
          simp only [trackStep, hg]
          simpa [stepOBlack, hg] using ih wm bm p
      | some wrbr =>
          obtain ⟨wr, br⟩ := wrbr
          simp only [trackStep, hg]
          rw [ih]
          by_cases hb : g.black = p
          · subst hb
            rw [lookupA_upsert_self]
            simp [stepOBlack, hg]
          · rw [lookupA_upsert_ne _ _ _ _ _ hb]
            simp [stepOBlack, hg, hb]

theorem foldl_stepOWhite_none_iff (p : String) (games : List Game) :
    ∀ o : Option PlayerPerformance,
    (games.foldl (stepOWhite p) o = none ↔ (o = none ∧ whiteRecCount games p = 0)) := by
  induction games with
  | nil => intro o; simp [whiteRecCount]
  | cons g rest ih =>
      intro o
      simp only [List.foldl_cons]
      cases hg : white_black_results g with
      | none =>
          rw [ih]
          simp [stepOWhite, hg, whiteRecCount, List.filter_cons]
      | some wrbr =>
          obtain ⟨wr, br⟩ := wrbr
          by_cases hw : g.white = p
          · rw [ih]
            simp [stepOWhite, hg, hw, whiteRecCount, List.filter_cons]
          · rw [ih]
            simp [stepOWhite, hg, hw, whiteRecCount, List.filter_cons]

theorem foldl_stepOWhite_played (p : String) (games : List Game) :
    ∀ (o : Option PlayerPerformance) (q : PlayerPerformance),
    games.foldl (stepOWhite p) o = some q →
    q.games_played = o.elim 0 (fun q0 => q0.games_played) + whiteRecCount games p := by
  induction games with
  | nil =>
      intro o q h
      simp at h
      subst h
      simp [whiteRecCount]
  | cons g rest ih =>
      intro o q h
      simp only [List.foldl_cons] at h
      cases hg : white_black_results g with
      | none =>
          have := ih o q (by simpa [stepOWhite, hg] using h)
          simpa [whiteRecCount, List.filter_cons, hg] using this
      | some wrbr =>
          obtain ⟨wr, br⟩ := wrbr
          by_cases hw : g.white = p
          · have h2 : rest.foldl (stepOWhite p)
                (some ((o.getD PlayerPerformance.default).update wr (g.white_rating_diff.getD 0))) = some q := by
              simpa [stepOWhite, hg, hw] using h
            have := ih _ q h2
            rw [this]
            simp only [Option.elim_some, update_games_played]
            cases o <;>
              simp [whiteRecCount, List.filter_cons, hg, hw, PlayerPerformance.default] <;> omega
          · have := ih o q (by simpa [stepOWhite, hg, hw] using h)
            simpa [whiteRecCount, List.filter_cons, hg, hw] using this

theorem foldl_stepOBlack_none_iff (p : String) (games : List Game) :
    ∀ o : Option PlayerPerformance,
    (games.foldl (stepOBlack p) o = none ↔ (o = none ∧ blackRecCount games p = 0)) := by
  induction games with
  | nil => intro o; simp [blackRecCount]
  | cons g rest ih =>
      intro o
      simp only [List.foldl_cons]
      cases hg : white_black_results g with
      | none =>
          rw [ih]
          simp [stepOBlack, hg, blackRecCount, List.filter_cons]
      | some wrbr =>
          obtain ⟨wr, br⟩ := wrbr
          by_cases hb : g.black = p
          · rw [ih]
            simp [stepOBlack, hg, hb, blackRecCount, List.filter_cons]
          · rw [ih]
            simp [stepOBlack, hg, hb, blackRecCount, List.filter_cons]

theorem foldl_stepOBlack_played (p : String) (games : List Game) :
    ∀ (o : Option PlayerPerformance) (q : PlayerPerformance),
    games.foldl (stepOBlack p) o = some q →
    q.games_played = o.elim 0 (fun q0 => q0.games_played) + blackRecCount games p := by
  induction games with
  | nil =>
      intro o q h
      simp at h
      subst h
      simp [blackRecCount]
  | cons g rest ih =>
      intro o q h
      simp only [List.foldl_cons] at h
      cases hg : white_black_results g with
      | none =>
          have := ih o q (by simpa [stepOBlack, hg] using h)
          simpa [blackRecCount, List.filter_cons, hg] using this
      | some wrbr =>
          obtain ⟨wr, br⟩ := wrbr
          by_cases hb : g.black = p
          · have h2 : rest.foldl (stepOBlack p)
                (some ((o.getD PlayerPerformance.default).update br (g.black_rating_diff.getD 0))) = some q := by
              simpa [stepOBlack, hg, hb] using h
            have := ih _ q h2
            rw [this]
            simp only [Option.elim_some, update_games_played]
            cases o <;>
              simp [blackRecCount, List.filter_cons, hg, hb, PlayerPerformance.default] <;> omega
          · have := ih o q (by simpa [stepOBlack, hg, hb] using h)
            simpa [blackRecCount, List.filter_cons, hg, hb] using this

theorem update_recognized_inv (q : PlayerPerformance) (r : String) (d : ℚ)
    (hr : r = "1-0" ∨ r = "0-1" ∨ r = "1/2-1/2")
    (h : q.games_won + q.games_lost + q.games_drawn = q.games_played) :
    PerfInv (q.update r d) := by
  refine ⟨?_, ?_, update_win_rate q r d⟩
  · rw [update_outcome_sum_recognized q r d hr, update_games_played, h]
  · rw [update_games_played]; omega

theorem foldl_stepOWhite_inv (p : String) (games : List Game) :
    ∀ (o : Option PlayerPerformance) (q : PlayerPerformance),
    (∀ q0, o = some q0 → PerfInv q0) →
    games.foldl (stepOWhite p) o = some q → PerfInv q := by
  induction games with
  | nil =>
      intro o q ho h
      simp at h
      exact ho q h
  | cons g rest ih =>
      intro o q ho h
      simp only [List.foldl_cons] at h
      cases hg : white_black_results g with
      | none => exact ih o q ho (by simpa [stepOWhite, hg] using h)
      | some wrbr =>
          obtain ⟨wr, br⟩ := wrbr
          by_cases hw : g.white = p
          · refine ih _ q ?_ (by simpa [stepOWhite, hg, hw] using h)
            intro q0 hq0
            injection hq0 with hq0
            subst hq0
            apply update_recognized_inv _ _ _ (white_black_results_recognized g wr br hg).1
            cases o with
            | none => simp [PlayerPerformance.default]
            | some q1 => exact (ho q1 rfl).1
          · exact ih o q ho (by simpa [stepOWhite, hg, hw] using h)

theorem foldl_stepOBlack_inv (p : String) (games : List Game) :
    ∀ (o : Option PlayerPerformance) (q : PlayerPerformance),
    (∀ q0, o = some q0 → PerfInv q0) →
    games.foldl (stepOBlack p) o = some q → PerfInv q := by
  induction games with
  | nil =>
      intro o q ho h
      simp at h
      exact ho q h
  | cons g rest ih =>
      intro o q ho h
      simp only [List.foldl_cons] at h
      cases hg : white_black_results g with
      | none => exact ih o q ho (by simpa [stepOBlack, hg] using h)
      | some wrbr =>
          obtain ⟨wr, br⟩ := wrbr
          by_cases hb : g.black = p
          · refine ih _ q ?_ (by simpa [stepOBlack, hg, hb] using h)
            intro q0 hq0
            injection hq0 with hq0
            subst hq0
            apply update_recognized_inv _ _ _ (white_black_results_recognized g wr br hg).2
            cases o with
            | none => simp [PlayerPerformance.default]
            | some q1 => exact (ho q1 rfl).1
          · exact ih o q ho (by simpa [stepOBlack, hg, hb] using h)

theorem track_entry_inv (games : List Game) (p : String) (perf : PlayerPerformance)
    (h : lookupA (track_player_performance games) p = some perf) : PerfInv perf := by
  rw [track_player_performance, lookupA_mergeOverride] at h
  cases hb : lookupA (black_performance games) p with
  | some v =>
      rw [hb] at h
      injection h with h
      subst h
      rw [black_performance, track_lookup_black] at hb
      exact foldl_stepOBlack_inv p games _ v (by simp [lookupA]) hb
  | none =>
      rw [hb] at h
      simp only at h
      rw [white_performance, track_lookup_white] at h
      exact foldl_stepOWhite_inv p games _ perf (by simp [lookupA]) h

theorem mm_lookup_white (games : List Game) :
    ∀ (wm bm : List (String × MMAcc)) (p : String),
    lookupA (games.foldl meanModeStep (wm, bm)).1 p = games.foldl (stepMMWhite p) (lookupA wm p) := by
  induction games with
  | nil => intro wm bm p; simp
  | cons g rest ih =>
      intro wm bm p
      simp only [List.foldl_cons, meanModeStep]
      rw [ih]
      by_cases hw : g.white = p
      · subst hw
        rw [lookupA_upsert_self]
        simp [stepMMWhite]
      · rw [lookupA_upsert_ne _ _ _ _ _ hw]
        simp [stepMMWhite, hw]

theorem mm_lookup_black (games : List Game) :
    ∀ (wm bm : List (String × MMAcc)) (p : String),
    lookupA (games.foldl meanModeStep (wm, bm)).2 p = games.foldl (stepMMBlack p) (lookupA bm p) := by
  induction games with
  | nil => intro wm bm p; simp
  | cons g rest ih =>
      intro wm bm p
      simp only [List.foldl_cons, meanModeStep]
      rw [ih]
      by_cases hb : g.black = p
      · subst hb
        rw [lookupA_upsert_self]
        simp [stepMMBlack]
      · rw [lookupA_upsert_ne _ _ _ _ _ hb]
        simp [stepMMBlack, hb]

theorem whiteAccUpdate_count_sum (g : Game) (e : MMAcc) :
    (whiteAccUpdate g e).game_count = e.game_count + 1 ∧
    (whiteAccUpdate g e).rating_sum = e.rating_sum + g.white_rating_diff.getD 0 := by
  unfold whiteAccUpdate
  split <;> simp

theorem blackAccUpdate_count_sum (g : Game) (e : MMAcc) :
    (blackAccUpdate g e).game_count = e.game_count + 1 ∧
    (blackAccUpdate g e).rating_sum = e.rating_sum + g.black_rating_diff.getD 0 := by
  unfold blackAccUpdate
  split <;> simp

theorem foldl_stepMMWhite_none_iff (p : String) (games : List Game) :
    ∀ o : Option MMAcc,
    (games.foldl (stepMMWhite p) o = none ↔ (o = none ∧ whiteAllCount games p = 0)) := by
  induction games with
  | nil => intro o; simp [whiteAllCount]
  | cons g rest ih =>
      intro o
      simp only [List.foldl_cons]
      by_cases hw : g.white = p
      · rw [ih]
        simp [stepMMWhite, hw, whiteAllCount, List.filter_cons]
      · rw [ih]
        simp [stepMMWhite, hw, whiteAllCount, List.filter_cons]

theorem foldl_stepMMBlack_none_iff (p : String) (games : List Game) :
    ∀ o : Option MMAcc,
    (games.foldl (stepMMBlack p) o = none ↔ (o = none ∧ blackAllCount games p = 0)) := by
  induction games with
  | nil => intro o; simp [blackAllCount]
  | cons g rest ih =>
      intro o
      simp only [List.foldl_cons]
      by_cases hb : g.black = p
      · rw [ih]
        simp [stepMMBlack, hb, blackAllCount, List.filter_cons]
      · rw [ih]
        simp [stepMMBlack, hb, blackAllCount, List.filter_cons]

theorem foldl_stepMMWhite_fields (p : String) (games : List Game) :
    ∀ (o : Option MMAcc) (e : MMAcc),
    games.foldl (stepMMWhite p) o = some e →
    e.game_count = o.elim 0 (fun e0 => e0.game_count) + whiteAllCount games p ∧
    e.rating_sum = o.elim 0 (fun e0 => e0.rating_sum) + whiteDeltaSum games p := by
  induction games with
  | nil =>
      intro o e h
      simp at h
      subst h
      simp [whiteAllCount, whiteDeltaSum]
  | cons g rest ih =>
      intro o e h
      simp only [List.foldl_cons] at h
      by_cases hw : g.white = p
      · have h2 : rest.foldl (stepMMWhite p) (some (whiteAccUpdate g (o.getD MMAcc.zero))) = some e := by
          simpa [stepMMWhite, hw] using h
        have := ih _ e h2
        obtain ⟨hc, hs⟩ := this
        constructor
        · rw [hc]
          simp only [Option.elim_some, (whiteAccUpdate_count_sum g _).1]
          cases o <;>
            simp [whiteAllCount, List.filter_cons, hw, MMAcc.zero] <;> omega
        · rw [hs]
          simp only [Option.elim_some, (whiteAccUpdate_count_sum g _).2]
          cases o <;>
            simp [whiteDeltaSum, List.filter_cons, hw, MMAcc.zero] <;> ring
      · have := ih o e (by simpa [stepMMWhite, hw] using h)
        obtain ⟨hc, hs⟩ := this
        constructor
        · rw [hc]; simp [whiteAllCount, List.filter_cons, hw]
        · rw [hs]; simp [whiteDeltaSum, List.filter_cons, hw]

theorem foldl_stepMMBlack_fields (p : String) (games : List Game) :
    ∀ (o : Option MMAcc) (e : MMAcc),
    games.foldl (stepMMBlack p) o = some e →
    e.game_count = o.elim 0 (fun e0 => e0.game_count) + blackAllCount games p ∧
    e.rating_sum = o.elim 0 (fun e0 => e0.rating_sum) + blackDeltaSum games p := by
  induction games with
  | nil =>
      intro o e h
      simp at h
      subst h
      simp [blackAllCount, blackDeltaSum]
  | cons g rest ih =>
      intro o e h
      simp only [List.foldl_cons] at h
      by_cases hb : g.black = p
      · have h2 : rest.foldl (stepMMBlack p) (some (blackAccUpdate g (o.getD MMAcc.zero))) = some e := by
          simpa [stepMMBlack, hb] using h
        have := ih _ e h2
        obtain ⟨hc, hs⟩ := this
        constructor
        · rw [hc]
          simp only [Option.elim_some, (blackAccUpdate_count_sum g _).1]
          cases o <;>
            simp [blackAllCount, List.filter_cons, hb, MMAcc.zero] <;> omega
        · rw [hs]
          simp only [Option.elim_some, (blackAccUpdate_count_sum g _).2]
          cases o <;>
            simp [blackDeltaSum, List.filter_cons, hb, MMAcc.zero] <;> ring
      · have := ih o e (by simpa [stepMMBlack, hb] using h)
        obtain ⟨hc, hs⟩ := this
        constructor
        · rw [hc]; simp [blackAllCount, List.filter_cons, hb]
        · rw [hs]; simp [blackDeltaSum, List.filter_cons, hb]

theorem mean_mode_lookup (games : List Game) (p : String) :
    lookupA (calculate_mean_mode games) p =
      (lookupA (mergeOverride (white_metrics games) (black_metrics games)) p).map
        (fun e => ({ win_rate := e.wins / (e.game_count : ℚ), draws := e.draws,
                     mean_rating_diff := e.rating_sum / (e.game_count : ℚ),
                     game_count := e.game_count } : MMStats)) := by
  unfold calculate_mean_mode
  exact lookupA_map_snd
    (fun e => ({ win_rate := e.wins / (e.game_count : ℚ), draws := e.draws,
                 mean_rating_diff := e.rating_sum / (e.game_count : ℚ),
                 game_count := e.game_count } : MMStats))
    (mergeOverride (white_metrics games) (black_metrics games)) p

theorem addNodeIfAbsent_spec (gr : DiGraph) (idx : List (String × Nat)) (s : String)
    (h : GraphInv (gr, idx)) :
    GraphInv ((addNodeIfAbsent gr idx s).2.1, (addNodeIfAbsent gr idx s).2.2) ∧
    (addNodeIfAbsent gr idx s).2.1.nodes.toFinset = insert s gr.nodes.toFinset ∧
    (addNodeIfAbsent gr idx s).2.1.edges = gr.edges := by
  obtain ⟨hkeys, hnodup⟩ := h
  simp only at hkeys hnodup
  cases hl : lookupA idx s with
  | some i =>
      have hmem : s ∈ gr.nodes := (hkeys s).mp (by simp [hl])
      simp only [addNodeIfAbsent, hl]
      refine ⟨⟨hkeys, hnodup⟩, ?_, trivial⟩
      simp [Finset.insert_eq_self, List.mem_toFinset, hmem]

  | none =>
      have hnmem : s ∉ gr.nodes := fun hm => by
        have := (hkeys s).mpr hm
        rw [hl] at this
        simp at this
      simp only [addNodeIfAbsent, hl]
      refine ⟨⟨?_, ?_⟩, ?_, trivial⟩
      · intro t
        rw [lookupA_append]
        cases hlt : lookupA idx t with
        | some j => simp [(hkeys t).mp (by simp [hlt])]
        | none =>
            have hnt : t ∉ gr.nodes := fun hm => by
              have := (hkeys t).mpr hm
              rw [hlt] at this
              simp at this
            by_cases hst : s = t <;> simp [lookupA, hst, hnt, eq_comm]
      · exact List.Nodup.append hnodup (List.nodup_singleton s) (by simpa using hnmem)
      · ext t
        simp [List.mem_toFinset, List.mem_append, or_comm]

theorem buildStep_spec (st : DiGraph × List (String × Nat)) (g : Game) (h : GraphInv st) :
    GraphInv (buildStep st g) ∧
    (buildStep st g).1.nodes.toFinset = insert g.white (insert g.black st.1.nodes.toFinset) ∧
    (buildStep st g).1.edges.length = st.1.edges.length + 1 := by
  obtain ⟨hw, hwn, hwe⟩ := addNodeIfAbsent_spec st.1 st.2 g.white h
  obtain ⟨hb, hbn, hbe⟩ :=
    addNodeIfAbsent_spec (addNodeIfAbsent st.1 st.2 g.white).2.1
      (addNodeIfAbsent st.1 st.2 g.white).2.2 g.black hw
  refine ⟨⟨?_, ?_⟩, ?_, ?_⟩
  · intro t
    simpa only [buildStep] using (hb.1 t)
  · simpa only [buildStep] using hb.2
  · show ((buildStep st g).1.nodes).toFinset = _
    have : (buildStep st g).1.nodes =
        (addNodeIfAbsent (addNodeIfAbsent st.1 st.2 g.white).2.1
          (addNodeIfAbsent st.1 st.2 g.white).2.2 g.black).2.1.nodes := rfl
    rw [this, hbn, hwn]
    exact Finset.Insert.comm g.black g.white st.1.nodes.toFinset
  · have : (buildStep st g).1.edges =
        (addNodeIfAbsent (addNodeIfAbsent st.1 st.2 g.white).2.1
          (addNodeIfAbsent st.1 st.2 g.white).2.2 g.black).2.1.edges ++
          [((addNodeIfAbsent st.1 st.2 g.white).1,
            (addNodeIfAbsent (addNodeIfAbsent st.1 st.2 g.white).2.1
              (addNodeIfAbsent st.1 st.2 g.white).2.2 g.black).1, 1)] := rfl
    rw [this, hbe, hwe]
    simp

theorem build_fold_spec (games : List Game) :
    ∀ st : DiGraph × List (String × Nat), GraphInv st →
    GraphInv (games.foldl buildStep st) ∧
    (games.foldl buildStep st).1.nodes.toFinset =
      st.1.nodes.toFinset ∪ (allPlayers games).toFinset ∧
    (games.foldl buildStep st).1.edges.length = st.1.edges.length + games.length := by
  induction games with
  | nil =>
      intro st h
      refine ⟨h, ?_, by simp⟩
      simp [allPlayers]
  | cons g rest ih =>
      intro st h
      obtain ⟨h1, h2, h3⟩ := buildStep_spec st g h
      obtain ⟨ih1, ih2, ih3⟩ := ih (buildStep st g) h1
      refine ⟨ih1, ?_, ?_⟩
      · rw [List.foldl_cons, ih2, h2]
        ext t
        simp [allPlayers, List.mem_toFinset]
      · rw [List.foldl_cons, ih3, h3]
        simp [Nat.add_assoc, Nat.add_comm 1 rest.length]

theorem filter_tag_eq_nil (l : List Row) (tag : String)
    (h : ∀ r ∈ l, r.analysis_type ≠ tag) :
    l.filter (fun r => r.analysis_type == tag) = [] := by
  induction l with
  | nil => rfl
  | cons x rest ih =>
      have hx : (x.analysis_type == tag) = false := by
        simp [h x (by simp)]
      simp only [List.filter_cons, hx, if_neg]
      exact ih (fun r hr => h r (by simp [hr]))

theorem filter_tag_perf_all (l : List PerfCsvRecord) :
    (l.map perfRow).filter (fun r => r.analysis_type == "Player Performance") = l.map perfRow := by
  induction l with
  | nil => rfl
  | cons x rest ih =>
      simp only [List.map_cons, List.filter_cons]
      rw [if_pos (by simp [perfRow])]
      rw [ih]

theorem c5_filter_part (pr btw cls : List (String × ℚ)) (perf : List PerfCsvRecord)
    (deg : List (String × Nat × Nat)) (wtd : List (String × ℚ × ℚ))
    (mm : List (String × MMStats)) :
    ((mergedRows pr btw cls perf deg wtd mm).filter
        (fun r => r.analysis_type == "Player Performance")).map Row.player =
      perf.tail.map PerfCsvRecord.player := by
  unfold mergedRows
  simp only [List.filter_append]
  rw [filter_tag_eq_nil (pr.tail.map (centralityRow "PageRank")) _ (by
    intro r hr
    simp only [List.mem_map] at hr
    obtain ⟨x, _, hx⟩ := hr
    rw [← hx]
    simp [centralityRow])]
  rw [filter_tag_eq_nil (btw.tail.map (centralityRow "Betweenness Centrality")) _ (by
    intro r hr
    simp only [List.mem_map] at hr
    obtain ⟨x, _, hx⟩ := hr
    rw [← hx]
    simp [centralityRow])]
  rw [filter_tag_eq_nil (cls.tail.map (centralityRow "Closeness Centrality")) _ (by
    intro r hr
    simp only [List.mem_map] at hr
    obtain ⟨x, _, hx⟩ := hr
    rw [← hx]
    simp [centralityRow])]
  rw [filter_tag_eq_nil ((deg.tail.map degreeRows).flatten) _ (by
    intro r hr
    simp only [List.mem_flatten, List.mem_map] at hr
    obtain ⟨lr, ⟨x, _, hx⟩, hrl⟩ := hr
    rw [← hx] at hrl
    simp only [degreeRows, List.mem_cons, List.mem_singleton] at hrl
    rcases hrl with h1 | h1 | h1
    · rw [h1]; simp
    · rw [h1]; simp
    · exact absurd h1 (by simp))]
  rw [filter_tag_eq_nil ((wtd.tail.map weightedRows).flatten) _ (by
    intro r hr
    simp only [List.mem_flatten, List.mem_map] at hr
    obtain ⟨lr, ⟨x, _, hx⟩, hrl⟩ := hr
    rw [← hx] at hrl
    simp only [weightedRows, List.mem_cons, List.mem_singleton] at hrl
    rcases hrl with h1 | h1 | h1
    · rw [h1]; simp
    · rw [h1]; simp
    · exact absurd h1 (by simp))]
  rw [filter_tag_eq_nil (mm.tail.map meanModeRow) _ (by
    intro r hr
    simp only [List.mem_map] at hr
    obtain ⟨x, _, hx⟩ := hr
    rw [← hx]
    simp [meanModeRow])]
  rw [filter_tag_perf_all]
  simp only [List.nil_append, List.append_nil, List.map_map]
  rfl

end GameAnalysis

namespace GameAnalysis

/-
Claim theorems.
-/

unseal Rat.add Rat.sub Rat.mul Rat.inv in
/-- C1 counterexample: on the spec scenario batch, the merged performance
record for P2 is the black-side aggregate alone, games played 1, won 0,
lost 1, drawn 0, rating change -5, win rate 0, not the across-both-sides
aggregate games played 2, won 1, lost 1, drawn 0, rating change -2, win
rate one half that the claim states. -/
theorem c1_scenario_counterexample :
    lookupA (track_player_performance demoGames) "P2" = some ⟨1, 0, 1, 0, -5, 0⟩ ∧
    (⟨1, 0, 1, 0, -5, 0⟩ : PlayerPerformance) ≠ ⟨2, 1, 1, 0, -2, 1/2⟩ := by
  decide

unseal Rat.add Rat.sub Rat.mul Rat.inv in
/-- C1 amended: the tracker does not aggregate across sides; the merged
map yields the black-side aggregate when the participant has one, and the
white-side aggregate otherwise, so on the scenario batch P1 has the stats
of its one white game, P2 the stats of its one black game only, and P3
the stats of its one black game. -/
theorem c1_black_overrides_white :
    (∀ (games : List Game) (p : String),
      lookupA (track_player_performance games) p =
        match lookupA (black_performance games) p with
        | some v => some v
        | none => lookupA (white_performance games) p) ∧
    lookupA (track_player_performance demoGames) "P1" = some ⟨1, 1, 0, 0, 5, 1⟩ ∧
    lookupA (track_player_performance demoGames) "P2" = some ⟨1, 0, 1, 0, -5, 0⟩ ∧
    lookupA (track_player_performance demoGames) "P3" = some ⟨1, 1, 0, 0, 3, 1⟩ :=
  ⟨fun games p => by
      rw [track_player_performance, lookupA_mergeOverride]
      cases lookupA (black_performance games) p <;> rfl,
   by decide, by decide, by decide⟩

/-- C2 counterexample: a batch consisting of one record with the
unrecognized result string Started produces an empty performance map, so
the participant P1, who appears in one record, has no games_played count
at all instead of the claimed count of 1. -/
theorem c2_unrecognized_skipped_counterexample :
    track_player_performance [unrecognizedGame] = [] ∧
    ([unrecognizedGame].filter (fun g => g.white == "P1" || g.black == "P1")).length = 1 := by
  decide

/-- C2 amended: games_played counts only records whose result string is
recognized by the tracker, and only on the surviving side of the merge:
it equals the number of recognized records with the participant as black
when that number is nonzero, else the number of recognized records with
the participant as white; the outcome tallies always sum exactly to
games_played. -/
theorem c2_games_played_recognized_side (games : List Game) (p : String)
    (perf : PlayerPerformance)
    (h : lookupA (track_player_performance games) p = some perf) :
    perf.games_played =
      (if blackRecCount games p ≠ 0 then blackRecCount games p else whiteRecCount games p) ∧
    perf.games_won + perf.games_lost + perf.games_drawn = perf.games_played := by
  have hsum := (track_entry_inv games p perf h).1
  refine ⟨?_, hsum⟩
  rw [track_player_performance, lookupA_mergeOverride] at h
  cases hb : lookupA (black_performance games) p with
  | some v =>
      rw [hb] at h
      injection h with h
      subst h
      rw [black_performance, track_lookup_black] at hb
      simp only [lookupA] at hb
      have hc := foldl_stepOBlack_played p games none v hb
      have hnz : blackRecCount games p ≠ 0 := by
        intro h0
        have : games.foldl (stepOBlack p) none = none :=
          (foldl_stepOBlack_none_iff p games none).mpr ⟨rfl, h0⟩
        rw [this] at hb
        exact Option.noConfusion hb
      rw [if_pos hnz]
      simpa using hc
  | none =>
      rw [hb] at h
      simp only at h
      rw [black_performance, track_lookup_black] at hb
      simp only [lookupA] at hb
      have hz : blackRecCount games p = 0 :=
        ((foldl_stepOBlack_none_iff p games none).mp hb).2
      rw [white_performance, track_lookup_white] at h
      simp only [lookupA] at h
      have hc := foldl_stepOWhite_played p games none perf h
      rw [if_neg (by simp [hz])]
      simpa using hc

unseal Rat.add Rat.sub Rat.mul Rat.inv in
/-- C2 witness: the amended statement instantiated on the scenario batch
at participant P2, whose merged record counts the single recognized
black-side game. -/
theorem c2_games_played_witness :
    (⟨1, 0, 1, 0, -5, 0⟩ : PlayerPerformance).games_played =
      (if blackRecCount demoGames "P2" ≠ 0 then blackRecCount demoGames "P2"
       else whiteRecCount demoGames "P2") ∧
    (⟨1, 0, 1, 0, -5, 0⟩ : PlayerPerformance).games_won +
      (⟨1, 0, 1, 0, -5, 0⟩ : PlayerPerformance).games_lost +
      (⟨1, 0, 1, 0, -5, 0⟩ : PlayerPerformance).games_drawn =
      (⟨1, 0, 1, 0, -5, 0⟩ : PlayerPerformance).games_played :=
  c2_games_played_recognized_side demoGames "P2" ⟨1, 0, 1, 0, -5, 0⟩ (by decide)

unseal Rat.add Rat.sub Rat.mul Rat.inv in
/-- C3 counterexample: in a batch where B plays once as white and once as
black, the mean/mode game_count for B is 1, the black-side count alone,
although B appears in 2 records. -/
theorem c3_cross_side_counterexample :
    lookupA (calculate_mean_mode crossGames) "B" = some ⟨0, 0, -1, 1⟩ ∧
    (crossGames.filter (fun g => g.white == "B" || g.black == "B")).length = 2 := by
  decide

/-- C3 amended: within each side map every record increments game_count
and adds the rating delta with no outcome gate, but the chain-collect
merge keeps only one side per participant: game_count equals the number
of records with the participant as black when that number is nonzero,
else the number with them as white, and mean_rating_diff averages only
that same surviving side. -/
theorem c3_game_count_surviving_side (games : List Game) (p : String) (m : MMStats)
    (h : lookupA (calculate_mean_mode games) p = some m) :
    m.game_count =
      (if blackAllCount games p ≠ 0 then blackAllCount games p else whiteAllCount games p) ∧
    m.mean_rating_diff =
      (if blackAllCount games p ≠ 0 then blackDeltaSum games p else whiteDeltaSum games p) /
        (m.game_count : ℚ) := by
  rw [mean_mode_lookup, lookupA_mergeOverride] at h
  cases hb : lookupA (black_metrics games) p with
  | some v =>
      rw [hb] at h
      simp only [Option.map_some'] at h
      injection h with h
      subst h
      rw [black_metrics, mm_lookup_black] at hb
      simp only [lookupA] at hb
      obtain ⟨hc, hs⟩ := foldl_stepMMBlack_fields p games none v hb
      have hnz : blackAllCount games p ≠ 0 := by
        intro h0
        have : games.foldl (stepMMBlack p) none = none :=
          (foldl_stepMMBlack_none_iff p games none).mpr ⟨rfl, h0⟩
        rw [this] at hb
        exact Option.noConfusion hb
      rw [if_pos hnz, if_pos hnz]
      constructor
      · simpa using hc
      · simp [hs, hc]
  | none =>
      rw [hb] at h
      simp only at h
      rw [black_metrics, mm_lookup_black] at hb
      simp only [lookupA] at hb
      have hz : blackAllCount games p = 0 :=
        ((foldl_stepMMBlack_none_iff p games none).mp hb).2
      cases hw : lookupA (white_metrics games) p with
      | none =>
          rw [hw] at h
          exact Option.noConfusion h
      | some v =>
          rw [hw] at h
          simp only [Option.map_some'] at h
          injection h with h
          subst h
          rw [white_metrics, mm_lookup_white] at hw
          simp only [lookupA] at hw
          obtain ⟨hc, hs⟩ := foldl_stepMMWhite_fields p games none v hw
          rw [if_neg (by simp [hz]), if_neg (by simp [hz])]
          constructor
          · simpa using hc
          · simp [hs, hc]

unseal Rat.add Rat.sub Rat.mul Rat.inv in
/-- C3 witness: the amended statement instantiated on the cross-side
batch at participant B, whose surviving black side has one game with
rating delta -1. -/
theorem c3_game_count_witness :
    (⟨0, 0, -1, 1⟩ : MMStats).game_count =
      (if blackAllCount crossGames "B" ≠ 0 then blackAllCount crossGames "B"
       else whiteAllCount crossGames "B") ∧
    (⟨0, 0, -1, 1⟩ : MMStats).mean_rating_diff =
      (if blackAllCount crossGames "B" ≠ 0 then blackDeltaSum crossGames "B"
       else whiteDeltaSum crossGames "B") /
        ((⟨0, 0, -1, 1⟩ : MMStats).game_count : ℚ) :=
  c3_game_count_surviving_side crossGames "B" ⟨0, 0, -1, 1⟩ (by decide)

end GameAnalysis

namespace GameAnalysis

unseal Rat.add Rat.sub Rat.mul Rat.inv in
/-- C4 bug evaluation: the merge stage writes the in-degree column,
record index 1, into the Score field of both the In-Degree and the
Out-Degree rows, the betweenness column into the Score field of both
Weighted rows, and the games_lost column, record index 3, into the Draws
field of Player Performance rows. On the degree batch, node B has
in-degree 2 and out-degree 0, yet its Out-Degree row carries score 2; a
weighted record with betweenness 3 and closeness 7 yields a Weighted
Closeness row with score 3; the scenario record for P2 with games_lost 1
and games_drawn 0 yields a Player Performance row whose Draws field is 1. -/
theorem c4_merge_column_bug :
    calculate_in_out_degree_centrality (build_graph degGames) =
      [(0, 0, 1), (1, 2, 0), (2, 0, 1)] ∧
    (build_graph degGames).nodes = ["A", "B", "C"] ∧
    (degreeRows ("B", (2, 0))).map (fun r => (r.analysis_type, r.score)) =
      [("In-Degree", some 2), ("Out-Degree", some 2)] ∧
    (weightedRows ("P", (3, 7))).map (fun r => (r.analysis_type, r.score)) =
      [("Weighted Betweenness", some 3), ("Weighted Closeness", some 3)] ∧
    lookupA (track_player_performance demoGames) "P2" = some ⟨1, 0, 1, 0, -5, 0⟩ ∧
    (perfRow (perfCsvOf ("P2", ⟨1, 0, 1, 0, -5, 0⟩))).draws = some 1 ∧
    (⟨1, 0, 1, 0, -5, 0⟩ : PlayerPerformance).games_drawn = 0 := by
  decide

unseal Rat.add Rat.sub Rat.mul Rat.inv in
/-- C5 helper: two valid iteration orders of the same scenario
performance map produce different merged outputs, whatever the other
intermediate files contain. -/
theorem c5_order_dependence :
    perfOrderA.Perm perfOrderB ∧
    ∀ (pr btw cls : List (String × ℚ)) (deg : List (String × Nat × Nat))
      (wtd : List (String × ℚ × ℚ)) (mm : List (String × MMStats)),
      mergedRows pr btw cls perfOrderA deg wtd mm ≠ mergedRows pr btw cls perfOrderB deg wtd mm := by
  refine ⟨by decide, ?_⟩
  intro pr btw cls deg wtd mm h
  unfold mergedRows at h
  have h1 := List.append_cancel_right h
  have h2 := List.append_cancel_right h1
  have h3 := List.append_cancel_right h2
  have h4 := List.append_cancel_left h3
  exact absurd h4 (by decide)

unseal Rat.add Rat.sub Rat.mul Rat.inv in
/-- C5 counterexample: both orders of the scenario performance map are
permutations of the same entries, hence both are possible HashMap
iteration orders of the same run, yet they yield different merged row
lists, and under the reversed order the emitted Player Performance
players are P2 then P1, which is not sorted by identity since P2 is not
at most P1. -/
theorem c5_order_counterexample :
    perfOrderA.Perm perfOrderB ∧
    mergedRows [] [] [] perfOrderA [] [] [] ≠ mergedRows [] [] [] perfOrderB [] [] [] ∧
    (mergedRows [] [] [] perfOrderB [] [] []).map Row.player = ["P2", "P1"] ∧
    ¬ ("P2" ≤ "P1") := by
  refine ⟨by decide, by decide, by decide, ?_⟩
  simp [String.le_iff_toList_le]
  decide

/-- C5 amended: the merged output is deterministic only relative to the
iteration orders of the underlying unordered maps: within the Player
Performance analysis type the emitted players are exactly the performance
entries in their iteration order with the first entry consumed as a CSV
header, no sorting by identity is applied, and two runs with different
iteration orders of the same map can emit different row lists. -/
theorem c5_rows_follow_iteration_order :
    (∀ (pr btw cls : List (String × ℚ)) (perf : List PerfCsvRecord)
       (deg : List (String × Nat × Nat)) (wtd : List (String × ℚ × ℚ))
       (mm : List (String × MMStats)),
      ((mergedRows pr btw cls perf deg wtd mm).filter
          (fun r => r.analysis_type == "Player Performance")).map Row.player =
        perf.tail.map PerfCsvRecord.player) ∧
    perfOrderA.Perm perfOrderB ∧
    (∀ (pr btw cls : List (String × ℚ)) (deg : List (String × Nat × Nat))
       (wtd : List (String × ℚ × ℚ)) (mm : List (String × MMStats)),
      mergedRows pr btw cls perfOrderA deg wtd mm ≠ mergedRows pr btw cls perfOrderB deg wtd mm) :=
  ⟨c5_filter_part, c5_order_dependence.1, c5_order_dependence.2⟩

unseal Rat.add Rat.sub Rat.mul Rat.inv in
/-- C6 bug evaluation: the two analyzers recognize draws under different
encodings of the result field. A record with result 1/2-1/2, the draw
encoding used by calculate_mean_mode and by the test data in main.rs,
earns 0.5 draw credit per participant in mean/mode but is skipped
entirely by the performance tracker, which leaves both participants
absent; conversely a record the tracker derives as a draw, result Normal
with no positive rating diff, increments both games_drawn counters but
earns no mean/mode draw credit. No single record does both, contradicting
the claimed scenario. -/
theorem c6_draw_encoding_bug :
    track_player_performance [drawGame] = [] ∧
    lookupA (calculate_mean_mode [drawGame]) "P1" = some ⟨0, 1/2, 0, 1⟩ ∧
    lookupA (calculate_mean_mode [drawGame]) "P2" = some ⟨0, 1/2, 0, 1⟩ ∧
    lookupA (track_player_performance [normalDrawGame]) "P1" = some ⟨1, 0, 0, 1, 0, 0⟩ ∧
    lookupA (track_player_performance [normalDrawGame]) "P2" = some ⟨1, 0, 0, 1, 0, 0⟩ ∧
    lookupA (calculate_mean_mode [normalDrawGame]) "P1" = some ⟨0, 0, 0, 1⟩ ∧
    lookupA (calculate_mean_mode [normalDrawGame]) "P2" = some ⟨0, 0, 0, 1⟩ := by
  decide

unseal Rat.add Rat.sub Rat.mul Rat.inv in
/-- C7 counterexample: participant P2 of the scenario batch has
games_played 1, not 0, yet win_rate 0.0, so win_rate equal to 0.0 does
not hold exactly when games_played equals 0. -/
theorem c7_zero_win_rate_counterexample :
    lookupA (track_player_performance demoGames) "P2" = some ⟨1, 0, 1, 0, -5, 0⟩ ∧
    (⟨1, 0, 1, 0, -5, 0⟩ : PlayerPerformance).win_rate = 0 ∧
    (⟨1, 0, 1, 0, -5, 0⟩ : PlayerPerformance).games_played ≠ 0 := by
  decide

/-- C7 amended: every participant in the tracker result has win_rate in
the closed interval from 0 to 1 and nonzero games_played, win_rate equals
games_won divided by games_played, and win_rate is 0.0 exactly when
games_won is 0, not when games_played is 0. -/
theorem c7_win_rate_bounds (games : List Game) (p : String) (perf : PlayerPerformance)
    (h : lookupA (track_player_performance games) p = some perf) :
    0 ≤ perf.win_rate ∧ perf.win_rate ≤ 1 ∧ perf.games_played ≠ 0 ∧
    perf.win_rate = (perf.games_won : ℚ) / (perf.games_played : ℚ) ∧
    (perf.win_rate = 0 ↔ perf.games_won = 0) := by
  obtain ⟨hsum, hpos, hrate⟩ := track_entry_inv games p perf h
  have hwl : perf.games_won ≤ perf.games_played := by omega
  have hp0 : (0 : ℚ) < (perf.games_played : ℚ) := by
    exact_mod_cast Nat.pos_of_ne_zero (by omega)
  refine ⟨?_, ?_, by omega, hrate, ?_⟩
  · rw [hrate]
    positivity
  · rw [hrate]
    rw [div_le_one hp0]
    exact_mod_cast hwl
  · rw [hrate]
    rw [div_eq_zero_iff]
    constructor
    · rintro (h1 | h1)
      · exact_mod_cast h1
      · exact absurd h1 (by positivity)
    · intro h1
      left
      exact_mod_cast h1

unseal Rat.add Rat.sub Rat.mul Rat.inv in
/-- C7 witness: the amended statement instantiated on the scenario batch
at participant P2, whose win_rate 0 reflects games_won 0 over
games_played 1. -/
theorem c7_win_rate_witness :
    0 ≤ (⟨1, 0, 1, 0, -5, 0⟩ : PlayerPerformance).win_rate ∧
    (⟨1, 0, 1, 0, -5, 0⟩ : PlayerPerformance).win_rate ≤ 1 ∧
    (⟨1, 0, 1, 0, -5, 0⟩ : PlayerPerformance).games_played ≠ 0 ∧
    (⟨1, 0, 1, 0, -5, 0⟩ : PlayerPerformance).win_rate =
      ((⟨1, 0, 1, 0, -5, 0⟩ : PlayerPerformance).games_won : ℚ) /
        ((⟨1, 0, 1, 0, -5, 0⟩ : PlayerPerformance).games_played : ℚ) ∧
    ((⟨1, 0, 1, 0, -5, 0⟩ : PlayerPerformance).win_rate = 0 ↔
      (⟨1, 0, 1, 0, -5, 0⟩ : PlayerPerformance).games_won = 0) :=
  c7_win_rate_bounds demoGames "P2" ⟨1, 0, 1, 0, -5, 0⟩ (by decide)

/-- C8: for every batch, the built graph has exactly one node per
distinct participant identity and exactly one edge per record, so
duplicate pairings yield parallel edges with no coalescing. -/
theorem c8_graph_counts (games : List Game) :
    (build_graph games).nodes.length = (allPlayers games).toFinset.card ∧
    (build_graph games).edges.length = games.length := by
  have h0 : GraphInv ((⟨[], []⟩ : DiGraph), ([] : List (String × Nat))) := by
    constructor
    · intro s; simp [lookupA]
    · simp
  obtain ⟨hinv, hn, he⟩ := build_fold_spec games _ h0
  constructor
  · have hcard : (build_graph games).nodes.toFinset.card = (build_graph games).nodes.length :=
      List.toFinset_card_of_nodup (by
        have hh : GraphInv (games.foldl buildStep (⟨⟨[], []⟩, []⟩)) := hinv
        exact hh.2)
    rw [← hcard]
    rw [show (build_graph games).nodes.toFinset =
        (games.foldl buildStep (⟨⟨[], []⟩, []⟩)).1.nodes.toFinset from rfl]
    rw [hn]
    simp
  · simpa using he

/-- C9: the weighted centrality computation calls the same library
functions with the same arguments as the unweighted betweenness and
closeness computations, so for every library implementation and every
graph the weighted pair coincides with the pair of unweighted results. -/
theorem c9_weighted_equals_unweighted (lib : CentralityLib) (g : DiGraph) :
    calculate_weighted_centrality lib g =
      (calculate_betweenness_centrality lib g, calculate_closeness_centrality lib g) :=
  rfl

/-- C10: update preserves the invariant that the outcome counters sum to
at most games_played; an update with an unrecognized result string still
increments games_played and adds the rating diff while leaving all three
outcome counters unchanged, and the inequality is strict for a fresh
record updated with an unrecognized result. -/
theorem c10_update_invariant (p : PlayerPerformance) (result : String) (diff : ℚ)
    (h : p.games_won + p.games_lost + p.games_drawn ≤ p.games_played) :
    ((p.update result diff).games_won + (p.update result diff).games_lost +
      (p.update result diff).games_drawn ≤ (p.update result diff).games_played) ∧
    (result ≠ "1-0" → result ≠ "0-1" → result ≠ "1/2-1/2" →
      (p.update result diff).games_played = p.games_played + 1 ∧
      (p.update result diff).total_rating_change = p.total_rating_change + diff ∧
      (p.update result diff).games_won = p.games_won ∧
      (p.update result diff).games_lost = p.games_lost ∧
      (p.update result diff).games_drawn = p.games_drawn) ∧
    (PlayerPerformance.default.update "Abandoned" 0).games_won +
      (PlayerPerformance.default.update "Abandoned" 0).games_lost +
      (PlayerPerformance.default.update "Abandoned" 0).games_drawn <
      (PlayerPerformance.default.update "Abandoned" 0).games_played := by
  refine ⟨update_outcome_sum_le p result diff h, ?_, by decide⟩
  intro h1 h2 h3
  obtain ⟨hw, hl, hd⟩ := update_unrecognized p result diff h1 h2 h3
  exact ⟨update_games_played p result diff, update_total_rating_change p result diff, hw, hl, hd⟩

unseal Rat.add Rat.sub Rat.mul Rat.inv in
/-- C10 witness: the invariant statement instantiated at the zero record
with the unrecognized result string Abandoned and rating diff 2. -/
theorem c10_update_witness :
    ((PlayerPerformance.default.update "Abandoned" 2).games_won +
      (PlayerPerformance.default.update "Abandoned" 2).games_lost +
      (PlayerPerformance.default.update "Abandoned" 2).games_drawn ≤
      (PlayerPerformance.default.update "Abandoned" 2).games_played) ∧
    ("Abandoned" ≠ "1-0" → "Abandoned" ≠ "0-1" → "Abandoned" ≠ "1/2-1/2" →
      (PlayerPerformance.default.update "Abandoned" 2).games_played =
        PlayerPerformance.default.games_played + 1 ∧
      (PlayerPerformance.default.update "Abandoned" 2).total_rating_change =
        PlayerPerformance.default.total_rating_change + 2 ∧
      (PlayerPerformance.default.update "Abandoned" 2).games_won =
        PlayerPerformance.default.games_won ∧
      (PlayerPerformance.default.update "Abandoned" 2).games_lost =
        PlayerPerformance.default.games_lost ∧
      (PlayerPerformance.default.update "Abandoned" 2).games_drawn =
        PlayerPerformance.default.games_drawn) ∧
    (PlayerPerformance.default.update "Abandoned" 0).games_won +
      (PlayerPerformance.default.update "Abandoned" 0).games_lost +
      (PlayerPerformance.default.update "Abandoned" 0).games_drawn <
      (PlayerPerformance.default.update "Abandoned" 0).games_played :=
  c10_update_invariant PlayerPerformance.default "Abandoned" 2 (by decide)

end GameAnalysis
